import Mathlib

/-!
Shallow embedding of the Chrome Trace Event logger of `tracer.h` /
`tracer.cpp`.

Modelling conventions:

* The monotonic clock `ChromeTracer::clock` (`high_resolution_clock`) is
  embedded as integer nanosecond tick readings (`TimePoint := Int`); clock
  readings are external inputs, so operations that call `clock::now()`
  take the reading as an explicit argument.
* `double` microsecond values are embedded as exact rationals;
  `duration_cast<std::chrono::duration<double, std::micro>>` applied to a
  tick difference is division by 1000.
* The calling thread's identity (`std::this_thread::get_id()`) is an
  external input `tid : Nat`.
* File output is embedded as the list of `(path, contents)` writes an
  operation performs.
* The single mutex serialises the operations, so an operation is embedded
  as a function on the recorder state.  `addDurationEvent` computes its
  event before entering the critical section; the embedding keeps this
  visible by factoring the operation through `mkDurationEvent`, which
  depends only on the data that is read before the lock is taken.
-/

/-- Clock reading of `ChromeTracer::clock` in integer nanosecond ticks. -/
abbrev TimePoint := Int

/-- Tick difference converted to fractional microseconds, as in
`std::chrono::duration_cast<std::chrono::duration<double, std::micro>>`:
the tick count divided by 1000 (`toMicros_eq_div` below states it as the
division it is; `mkRat` keeps the value kernel-evaluable). -/
def toMicros (d : Int) : ℚ := mkRat d 1000

/-- The `struct TraceEvent` of `tracer.h`. -/
structure TraceEvent where
  name : String
  category : String
  phase : Char
  timestampUs : ℚ
  durationUs : ℚ
  threadId : Nat
deriving DecidableEq

/-- The private state of `class ChromeTracer`: `m_events`, `m_startTime`,
`m_filepath`, `m_active`.  The mutex is represented by the operations
being atomic state transformers, not by a field. -/
structure ChromeTracer where
  events : List TraceEvent
  startTime : TimePoint
  filepath : String
  active : Bool
deriving DecidableEq

/-- The default-constructed singleton instance: empty buffer and
`m_active = false` (`bool m_active = false;`). -/
def ChromeTracer.init : ChromeTracer :=
  { events := [], startTime := 0, filepath := "", active := false }

/-- `ChromeTracer::beginSession`: stores the path, clears the buffer,
records the current clock reading as session start, marks the session
active. -/
def ChromeTracer.beginSession (s : ChromeTracer) (filepath : String)
    (now : TimePoint) : ChromeTracer :=
  { s with filepath := filepath, events := [], startTime := now, active := true }

/-- Decimal digit character for `d % 10`. -/
def digitChar (d : Nat) : Char := Char.ofNat (48 + d % 10)

/-- Worker for `natDigits`; the fuel dominates the number so the
recursion is structural and fully evaluable. -/
def natDigitsAux : Nat → Nat → List Char
  | 0, _ => []
  | fuel + 1, n =>
    if n < 10 then [digitChar n]
    else natDigitsAux fuel (n / 10) ++ [digitChar (n % 10)]

/-- Decimal digits of a natural number, most significant digit first. -/
def natDigits (n : Nat) : List Char := natDigitsAux (n + 1) n

/-- Rendering of a natural number the way `operator<<` renders it. -/
def renderNat (n : Nat) : String := String.mk (natDigits n)

/-- Exactly three decimal digits of `k` (used for the fractional part of
a microsecond value; nanosecond ticks give at most three fractional
digits). -/
def pad3 (k : Nat) : List Char :=
  [digitChar (k / 100), digitChar (k / 10), digitChar k]

/-- Model of `operator<<` on the `double` microsecond fields: every value
the tracer produces is an integer multiple of 1/1000 microseconds, and it
is printed as a plain decimal whose fractional part appears only when it
is nonzero. -/
def renderNum (q : ℚ) : String :=
  let m : Int := (q.num * 1000).fdiv (q.den : Int)
  let n : Nat := m.natAbs
  (if m < 0 then "-" else "") ++ String.mk (natDigits (n / 1000)) ++
    (if n % 1000 = 0 then "" else "." ++ String.mk (pad3 (n % 1000)))

/-- One event object as the body of `ChromeTracer::writeToFile` streams
it: the fixed key skeleton around the verbatim field values, with the
`dur` member appended exactly when the phase is `'X'`. -/
def renderEvent (ev : TraceEvent) : String :=
  "\x7b\"name\":\"" ++ ev.name ++
    "\",\"cat\":\"" ++ ev.category ++
    "\",\"ph\":\"" ++ String.singleton ev.phase ++
    "\",\"ts\":" ++ renderNum ev.timestampUs ++
    ",\"pid\":0,\"tid\":" ++ renderNat ev.threadId ++
    (if ev.phase = 'X' then ",\"dur\":" ++ renderNum ev.durationUs else "") ++
    "\x7d"

/-- The loop tail of `writeToFile`: every event after the first is
preceded by a comma (`if (i > 0) ofs << ","`). -/
def eventsTail : List TraceEvent → String
  | [] => ""
  | ev :: rest => "," ++ renderEvent ev ++ eventsTail rest

/-- The full event array body written between the brackets. -/
def eventsBody : List TraceEvent → String
  | [] => ""
  | ev :: rest => renderEvent ev ++ eventsTail rest

/-- `ChromeTracer::writeToFile`: the exact contents streamed to
`std::ofstream ofs(m_filepath)`. -/
def ChromeTracer.writeToFile (s : ChromeTracer) : String :=
  "\x7b\"traceEvents\":[" ++ eventsBody s.events ++ "]\x7d"

/-- `ChromeTracer::endSession`: a no-op when the session is inactive;
otherwise marks it inactive and performs the single `writeToFile` write.
The second component lists the `(path, contents)` writes performed. -/
def ChromeTracer.endSession (s : ChromeTracer) :
    ChromeTracer × List (String × String) :=
  if s.active then ({ s with active := false }, [(s.filepath, s.writeToFile)])
  else (s, [])

/-- The unlocked phase of `addDurationEvent`: the event it builds from
the caller's strings, caller-supplied clock readings, the session start
and the calling thread, all read before the lock is acquired. -/
def mkDurationEvent (name category : String) (start stop : TimePoint)
    (startTime : TimePoint) (tid : Nat) : TraceEvent :=
  { name := name, category := category, phase := 'X',
    timestampUs := toMicros (start - startTime),
    durationUs := toMicros (stop - start),
    threadId := tid }

/-- The locked phase common to all appends: `if (m_active)
m_events.push_back(...)`. -/
def appendIfActive (ev : TraceEvent) (s : ChromeTracer) : ChromeTracer :=
  if s.active then { s with events := s.events ++ [ev] } else s

/-- `ChromeTracer::addDurationEvent`: builds the complete event outside
the critical section, then appends it under the lock when active. -/
def ChromeTracer.addDurationEvent (s : ChromeTracer) (name category : String)
    (start stop : TimePoint) (tid : Nat) : ChromeTracer :=
  appendIfActive (mkDurationEvent name category start stop s.startTime tid) s

/-- The unlocked phase of `addPhaseEvent`: timestamp from `clock::now()`
minus the session start, duration fixed to zero. -/
def mkPhaseEvent (name category : String) (phase : Char) (now : TimePoint)
    (startTime : TimePoint) (tid : Nat) : TraceEvent :=
  { name := name, category := category, phase := phase,
    timestampUs := toMicros (now - startTime),
    durationUs := 0,
    threadId := tid }

/-- `ChromeTracer::addPhaseEvent` (private helper of the begin, end and
instant appends). -/
def ChromeTracer.addPhaseEvent (s : ChromeTracer) (name category : String)
    (phase : Char) (now : TimePoint) (tid : Nat) : ChromeTracer :=
  appendIfActive (mkPhaseEvent name category phase now s.startTime tid) s

/-- `ChromeTracer::addBeginEvent`. -/
def ChromeTracer.addBeginEvent (s : ChromeTracer) (name category : String)
    (now : TimePoint) (tid : Nat) : ChromeTracer :=
  s.addPhaseEvent name category 'B' now tid

/-- `ChromeTracer::addEndEvent`. -/
def ChromeTracer.addEndEvent (s : ChromeTracer) (name category : String)
    (now : TimePoint) (tid : Nat) : ChromeTracer :=
  s.addPhaseEvent name category 'E' now tid

/-- `ChromeTracer::addInstantEvent`. -/
def ChromeTracer.addInstantEvent (s : ChromeTracer) (name category : String)
    (now : TimePoint) (tid : Nat) : ChromeTracer :=
  s.addPhaseEvent name category 'I' now tid

/-- The `class ScopeTrace` value: `m_name`, `m_category`, `m_start`. -/
structure ScopeTrace where
  name : String
  category : String
  start : TimePoint
deriving DecidableEq

/-- The `ScopeTrace` constructor: stores the name and category and
captures `ChromeTracer::now()`. -/
def ScopeTrace.construct (name category : String) (now : TimePoint) :
    ScopeTrace :=
  { name := name, category := category, start := now }

/-- The `ScopeTrace` destructor: calls
`addDurationEvent(m_name, m_category, m_start, ChromeTracer::now())`. -/
def ScopeTrace.destruct (g : ScopeTrace) (now : TimePoint) (tid : Nat)
    (s : ChromeTracer) : ChromeTracer :=
  s.addDurationEvent g.name g.category g.start now tid

/-- One append call of the public API together with the external inputs
(clock readings, calling thread) that call observes. -/
inductive Op where
  | durationEv (name category : String) (start stop : TimePoint) (tid : Nat)
  | beginEv (name category : String) (now : TimePoint) (tid : Nat)
  | endEv (name category : String) (now : TimePoint) (tid : Nat)
  | instantEv (name category : String) (now : TimePoint) (tid : Nat)
deriving DecidableEq

/-- Executing one append call on the recorder. -/
def applyOp (s : ChromeTracer) : Op → ChromeTracer
  | .durationEv n c a b tid => s.addDurationEvent n c a b tid
  | .beginEv n c now tid => s.addBeginEvent n c now tid
  | .endEv n c now tid => s.addEndEvent n c now tid
  | .instantEv n c now tid => s.addInstantEvent n c now tid

/-- Executing a sequence of append calls in order. -/
def runOps (s : ChromeTracer) (ops : List Op) : ChromeTracer :=
  ops.foldl applyOp s

/-- The event record an append call produces for a session whose start
reference is `startTime`. -/
def opEvent (startTime : TimePoint) : Op → TraceEvent
  | .durationEv n c a b tid => mkDurationEvent n c a b startTime tid
  | .beginEv n c now tid => mkPhaseEvent n c 'B' now startTime tid
  | .endEv n c now tid => mkPhaseEvent n c 'E' now startTime tid
  | .instantEv n c now tid => mkPhaseEvent n c 'I' now startTime tid

/-- The thread that issued an append call. -/
def opTid : Op → Nat
  | .durationEv _ _ _ _ tid => tid
  | .beginEv _ _ _ tid => tid
  | .endEv _ _ _ tid => tid
  | .instantEv _ _ _ tid => tid

/-- JSON string literal as the spec's §6 describes the rendering of
`name` and `cat`: the caller's characters verbatim between quotes. -/
def jStr (s : String) : String := "\"" ++ s ++ "\""

/-- Compact comma separation (no pretty-printing). -/
def jCommaSep : List String → String
  | [] => ""
  | [x] => x
  | x :: y :: xs => x ++ "," ++ jCommaSep (y :: xs)

/-- Compact JSON object with its members in the given order. -/
def jObj (members : List (String × String)) : String :=
  "\x7b" ++ jCommaSep (members.map fun m => jStr m.1 ++ ":" ++ m.2) ++ "\x7d"

/-- Compact JSON array of the given rendered elements. -/
def jArr (xs : List String) : String := "[" ++ jCommaSep xs ++ "]"

/-- An event object exactly as the spec states it: keys in the order
`name`, `cat`, `ph`, `ts`, `pid` (the literal integer 0), `tid`, and a
`dur` member present if and only if `ph` is `"X"`. -/
def specEventJson (ev : TraceEvent) : String :=
  jObj ([("name", jStr ev.name), ("cat", jStr ev.category),
         ("ph", jStr (String.singleton ev.phase)),
         ("ts", renderNum ev.timestampUs), ("pid", "0"),
         ("tid", renderNat ev.threadId)] ++
        (if ev.phase = 'X' then [("dur", renderNum ev.durationUs)] else []))

/-- The spec's single output object
`\x7b"traceEvents":[e1,...,en]\x7d`. -/
def specOutput (events : List TraceEvent) : String :=
  jObj [("traceEvents", jArr (events.map specEventJson))]

/-- The left brace character. -/
def lbrace : Char := Char.ofNat 123

/-- The right brace character. -/
def rbrace : Char := Char.ofNat 125

/-- JSON insignificant whitespace. -/
def isWsChar (c : Char) : Bool := c == ' ' || c == '\n' || c == '\t' || c == '\r'

/-- Skip insignificant whitespace. -/
def skipWs : List Char → List Char
  | [] => []
  | c :: r => if isWsChar c then skipWs r else c :: r

/-- ASCII decimal digit. -/
def isDigitChar (c : Char) : Bool := 48 ≤ c.toNat && c.toNat ≤ 57

/-- ASCII hexadecimal digit. -/
def isHexChar (c : Char) : Bool :=
  isDigitChar c || (97 ≤ c.toNat && c.toNat ≤ 102) || (65 ≤ c.toNat && c.toNat ≤ 70)

/-- Scanner for the part of a JSON string after the opening quote,
returning the input after the closing quote.  The second argument is the
scanner mode: 0 ordinary characters (which must not be control
characters), 1 immediately after a backslash, and `k + 2` inside a `\u`
escape with `k + 1` hexadecimal digits still missing. -/
def strBodyAux : List Char → Nat → Option (List Char)
  | [], _ => none
  | c :: r, 0 =>
    if c = '"' then some r
    else if c = '\\' then strBodyAux r 1
    else if 32 ≤ c.toNat then strBodyAux r 0
    else none
  | c :: r, 1 =>
    if c = 'u' then strBodyAux r 5
    else if c = '"' || c = '\\' || c = '/' || c = 'b' || c = 'f' ||
        c = 'n' || c = 'r' || c = 't' then strBodyAux r 0
    else none
  | c :: r, k + 2 =>
    if isHexChar c then (if k = 0 then strBodyAux r 0 else strBodyAux r (k + 1))
    else none

/-- Scan a JSON string body (after the opening quote). -/
def strBody (l : List Char) : Option (List Char) := strBodyAux l 0

/-- The integer part of a JSON number: `0`, or a nonzero digit followed
by digits.  (A leading zero such as `01` parses as `0` and leaves `1`,
which no JSON context accepts, so the grammar's restriction holds.) -/
def parseInt : List Char → Option (List Char)
  | [] => none
  | c :: r =>
    if c = '0' then some r
    else if isDigitChar c then some (r.dropWhile isDigitChar)
    else none

/-- The optional fraction part; a malformed fraction is left in place
for the surrounding context to reject. -/
def parseFrac : List Char → List Char
  | [] => []
  | [c] => [c]
  | c :: c2 :: r =>
    if c = '.' then
      (if isDigitChar c2 then r.dropWhile isDigitChar else c :: c2 :: r)
    else c :: c2 :: r

/-- The optional exponent part; a malformed exponent is left in place
for the surrounding context to reject. -/
def parseExp (l : List Char) : List Char :=
  match l with
  | c :: r =>
    if c = 'e' || c = 'E' then
      match (match r with
             | s :: r2 => if s = '+' || s = '-' then r2 else s :: r2
             | [] => []) with
      | d :: r3 => if isDigitChar d then r3.dropWhile isDigitChar else l
      | [] => l
    else l
  | [] => l

/-- Unsigned JSON number. -/
def parseNumCore (l : List Char) : Option (List Char) :=
  match parseInt l with
  | some r => some (parseExp (parseFrac r))
  | none => none

/-- JSON number with optional leading minus. -/
def parseNumber : List Char → Option (List Char)
  | [] => none
  | c :: r => if c = '-' then parseNumCore r else parseNumCore (c :: r)

/-- Parser mode: a value, the member list of an object, or the element
list of an array. -/
inductive PMode where
  | value | members | elems

/-- Recursive-descent JSON recognizer.  Fuel is spent on every recursive
step into a nested value or a further member/element, so any fuel at
least twice the input length suffices; a parse returns the unconsumed
input. -/
def parseJ : Nat → PMode → List Char → Option (List Char)
  | 0, _, _ => none
  | fuel + 1, .value, l =>
    match skipWs l with
    | [] => none
    | c :: r =>
      if c = '[' then
        match skipWs r with
        | ']' :: r2 => some r2
        | m => parseJ fuel .elems m
      else if c = '"' then strBody r
      else if c = 't' then
        (match r with | 'r' :: 'u' :: 'e' :: r2 => some r2 | _ => none)
      else if c = 'f' then
        (match r with | 'a' :: 'l' :: 's' :: 'e' :: r2 => some r2 | _ => none)
      else if c = 'n' then
        (match r with | 'u' :: 'l' :: 'l' :: r2 => some r2 | _ => none)
      else if c = lbrace then
        match skipWs r with
        | [] => none
        | c2 :: r2 => if c2 = rbrace then some r2 else parseJ fuel .members (c2 :: r2)
      else parseNumber (c :: r)
  | fuel + 1, .members, l =>
    match skipWs l with
    | [] => none
    | c :: r =>
      if c = '"' then
        match strBody r with
        | some r2 =>
          (match skipWs r2 with
           | [] => none
           | c3 :: r3 =>
             if c3 = ':' then
               match parseJ fuel .value r3 with
               | some r4 =>
                 (match skipWs r4 with
                  | [] => none
                  | c5 :: r5 =>
                    if c5 = ',' then parseJ fuel .members r5
                    else if c5 = rbrace then some r5 else none)
               | none => none
             else none)
        | none => none
      else none
  | fuel + 1, .elems, l =>
    match parseJ fuel .value l with
    | some r =>
      (match skipWs r with
       | [] => none
       | c :: r2 =>
         if c = ',' then parseJ fuel .elems r2
         else if c = ']' then some r2 else none)
    | none => none

/-- A string is well-formed JSON when it parses as one JSON value with
nothing but whitespace left over. -/
def isValidJson (s : String) : Bool :=
  match parseJ (2 * s.length + 16) .value s.data with
  | some r => (skipWs r).isEmpty
  | none => false

/-- A character the tracer may copy into a JSON string unescaped without
damage: not a quote, not a backslash, not a control character. -/
def cleanChar (c : Char) : Bool := !(c == '"') && !(c == '\\') && 32 ≤ c.toNat

/-- A string all of whose characters are `cleanChar`. -/
def cleanStr (s : String) : Bool := s.data.all cleanChar

/-- The four phase tags the tracer's public interface ever stores. -/
def phaseOk (c : Char) : Bool := c == 'B' || c == 'E' || c == 'X' || c == 'I'

theorem renderEvent_eq_spec (ev : TraceEvent) :
    renderEvent ev = specEventJson ev := by
  by_cases h : ev.phase = 'X' <;>
    simp [renderEvent, specEventJson, jObj, jStr, jCommaSep, h,
      String.append_assoc] <;> rfl

theorem eventsTail_eq_comma (x : TraceEvent) (xs : List TraceEvent) :
    eventsTail (x :: xs) = "," ++ eventsBody (x :: xs) := by
  simp [eventsTail, eventsBody, String.append_assoc]

theorem eventsBody_eq_spec :
    ∀ evs : List TraceEvent, eventsBody evs = jCommaSep (evs.map specEventJson)
  | [] => rfl
  | [e] => by simp [eventsBody, eventsTail, jCommaSep, renderEvent_eq_spec]
  | e :: f :: rest => by
    have ih := eventsBody_eq_spec (f :: rest)
    calc eventsBody (e :: f :: rest)
        = renderEvent e ++ eventsTail (f :: rest) := rfl
      _ = renderEvent e ++ ("," ++ eventsBody (f :: rest)) := by
          rw [eventsTail_eq_comma]
      _ = specEventJson e ++ ("," ++ jCommaSep ((f :: rest).map specEventJson)) := by
          rw [ih, renderEvent_eq_spec]
      _ = jCommaSep ((e :: f :: rest).map specEventJson) := by
          simp [jCommaSep, String.append_assoc]

/-- C1.  For every buffered sequence of event records, `endSession`
writes to the stored output path exactly one JSON object
`\x7b"traceEvents":[e1,...,en]\x7d` where each event is compact JSON with
keys in the order `name`, `cat`, `ph`, `ts`, `pid`, `tid` (then `dur`
last); `name` and `cat` are verbatim, `pid` is the literal 0, `tid` is
the thread identity's natural rendering, and `dur` is present iff `ph`
is `"X"`. -/
theorem endSession_writes_spec_format (s : ChromeTracer) :
    s.writeToFile = specOutput s.events ∧
    (s.active = true →
      s.endSession = ({ s with active := false },
        [(s.filepath, specOutput s.events)])) := by
  have hbody : s.writeToFile = specOutput s.events := by
    show "\x7b\"traceEvents\":[" ++ eventsBody s.events ++ "]\x7d" = _
    rw [eventsBody_eq_spec]
    simp [specOutput, jObj, jArr, jStr, jCommaSep, String.append_assoc]
    rfl
  refine ⟨hbody, fun h => ?_⟩
  simp [ChromeTracer.endSession, h, hbody]

theorem endSession_writes_spec_format_witness :
    ((ChromeTracer.init.beginSession "t.json" 0).addInstantEvent "A" "cat" 5 7).active
        = true ∧
    ((ChromeTracer.init.beginSession "t.json" 0).addInstantEvent "A" "cat" 5 7).endSession
        = ({ (ChromeTracer.init.beginSession "t.json" 0).addInstantEvent "A" "cat" 5 7
              with active := false },
           [(((ChromeTracer.init.beginSession "t.json" 0).addInstantEvent "A" "cat" 5 7).filepath,
             specOutput ((ChromeTracer.init.beginSession "t.json" 0).addInstantEvent "A" "cat" 5 7).events)]) :=
  ⟨rfl,
   (endSession_writes_spec_format
     ((ChromeTracer.init.beginSession "t.json" 0).addInstantEvent "A" "cat" 5 7)).2 rfl⟩

/-- C2.  Any append call made while no session is active leaves the
recorder state unchanged (the record is silently dropped and can never
appear in later flushed output), and the call returns normally. -/
theorem append_inactive_dropped (s : ChromeTracer) (n c : String)
    (a b now : TimePoint) (tid : Nat) (h : s.active = false) :
    s.addDurationEvent n c a b tid = s ∧
    s.addBeginEvent n c now tid = s ∧
    s.addEndEvent n c now tid = s ∧
    s.addInstantEvent n c now tid = s := by
  refine ⟨?_, ?_, ?_, ?_⟩ <;>
    simp [ChromeTracer.addDurationEvent, ChromeTracer.addBeginEvent,
      ChromeTracer.addEndEvent, ChromeTracer.addInstantEvent,
      ChromeTracer.addPhaseEvent, appendIfActive, h]

theorem append_inactive_dropped_witness :
    ChromeTracer.init.active = false ∧
    ChromeTracer.init.addInstantEvent "A" "c" 3 1 = ChromeTracer.init :=
  ⟨rfl, (append_inactive_dropped ChromeTracer.init "A" "c" 0 0 3 1 rfl).2.2.2⟩

/-- C3.  Every `beginSession(path)` call, including a repeated call
without an intervening `endSession`, empties the event buffer, sets the
session start reference to the current monotonic reading, stores `path`
as the output destination, and marks the session active. -/
theorem beginSession_resets_session (s : ChromeTracer) (path : String)
    (now : TimePoint) :
    (s.beginSession path now).events = [] ∧
    (s.beginSession path now).startTime = now ∧
    (s.beginSession path now).filepath = path ∧
    (s.beginSession path now).active = true :=
  ⟨rfl, rfl, rfl, rfl⟩

/-- C4.  `endSession` while inactive is a no-op (state unchanged, no
write); while active it deactivates the session and writes exactly once,
so of two consecutive calls only the first writes. -/
theorem endSession_inactive_noop (s : ChromeTracer) :
    (s.active = false → s.endSession = (s, [])) ∧
    (s.active = true →
      s.endSession = ({ s with active := false }, [(s.filepath, s.writeToFile)]) ∧
      s.endSession.1.endSession = (s.endSession.1, [])) := by
  constructor
  · intro h; simp [ChromeTracer.endSession, h]
  · intro h
    constructor
    · simp [ChromeTracer.endSession, h]
    · simp [ChromeTracer.endSession, h]

theorem endSession_inactive_noop_witness :
    (ChromeTracer.init.beginSession "t.json" 0).active = true ∧
    (ChromeTracer.init.beginSession "t.json" 0).endSession.1.endSession
      = ((ChromeTracer.init.beginSession "t.json" 0).endSession.1, []) :=
  ⟨rfl,
   ((endSession_inactive_noop (ChromeTracer.init.beginSession "t.json" 0)).2 rfl).2⟩

/-- C5.  `addDurationEvent(name, category, start, end)` builds a record
with timestamp `start − sessionStart` and duration `end − start` in
fractional microseconds, phase `'X'` and the calling thread's identity,
computing all of that before the exclusive section (the built event is a
function only of data read before the lock), and then appends it under
the lock exactly when the session is active. -/
theorem addDurationEvent_computes_before_lock (n c : String)
    (a b : TimePoint) (tid : Nat) (s : ChromeTracer) :
    s.addDurationEvent n c a b tid
        = appendIfActive (mkDurationEvent n c a b s.startTime tid) s ∧
    (mkDurationEvent n c a b s.startTime tid).timestampUs
        = toMicros (a - s.startTime) ∧
    (mkDurationEvent n c a b s.startTime tid).durationUs = toMicros (b - a) ∧
    (mkDurationEvent n c a b s.startTime tid).phase = 'X' ∧
    (mkDurationEvent n c a b s.startTime tid).threadId = tid ∧
    (s.active = true →
      s.addDurationEvent n c a b tid
        = { s with events := s.events ++ [mkDurationEvent n c a b s.startTime tid] }) ∧
    (s.active = false → s.addDurationEvent n c a b tid = s) := by
  refine ⟨rfl, rfl, rfl, rfl, rfl, fun h => ?_, fun h => ?_⟩ <;>
    simp [ChromeTracer.addDurationEvent, appendIfActive, h]

theorem addDurationEvent_computes_before_lock_witness :
    (ChromeTracer.init.beginSession "t.json" 1000).active = true ∧
    (ChromeTracer.init.beginSession "t.json" 1000).addDurationEvent "W" "f" 2000 4500 3
      = { ChromeTracer.init.beginSession "t.json" 1000 with
          events := [mkDurationEvent "W" "f" 2000 4500 1000 3] } :=
  ⟨rfl,
   (addDurationEvent_computes_before_lock "W" "f" 2000 4500 3
     (ChromeTracer.init.beginSession "t.json" 1000)).2.2.2.2.2.1 rfl⟩

theorem opEvent_threadId (startTime : TimePoint) (o : Op) :
    (opEvent startTime o).threadId = opTid o := by
  cases o <;> rfl

theorem applyOp_active (s : ChromeTracer) (o : Op) (h : s.active = true) :
    applyOp s o = { s with events := s.events ++ [opEvent s.startTime o] } := by
  cases o <;>
    simp [applyOp, ChromeTracer.addDurationEvent, ChromeTracer.addBeginEvent,
      ChromeTracer.addEndEvent, ChromeTracer.addInstantEvent,
      ChromeTracer.addPhaseEvent, appendIfActive, h, opEvent]

theorem runOps_active :
    ∀ (ops : List Op) (s : ChromeTracer), s.active = true →
      runOps s ops = { s with events := s.events ++ ops.map (opEvent s.startTime) }
  | [], s, _ => by simp [runOps]
  | o :: t, s, h => by
    have step := applyOp_active s o h
    have ih := runOps_active t { s with events := s.events ++ [opEvent s.startTime o] }
      (by simpa using h)
    simp only [runOps, List.foldl_cons] at ih ⊢
    rw [step, ih]
    simp

/-- C6.  If a session is active and `K` append calls run, every call
appends exactly one record: the buffer afterwards is the old buffer with
the `K` new records appended in issue order (old records immutable and in
place, no loss, no duplication), `endSession` then flushes it in exactly
one write, and the records of each single thread appear in that thread's
issue order. -/
theorem session_appends_exact (s : ChromeTracer) (ops : List Op)
    (h : s.active = true) :
    (runOps s ops).events = s.events ++ ops.map (opEvent s.startTime) ∧
    (runOps s ops).events.length = s.events.length + ops.length ∧
    (runOps s ops).endSession.2
      = [((runOps s ops).filepath, (runOps s ops).writeToFile)] ∧
    (∀ tid : Nat,
      (runOps s ops).events.filter (fun e => e.threadId == tid)
        = s.events.filter (fun e => e.threadId == tid)
          ++ ((ops.filter (fun o => opTid o == tid)).map (opEvent s.startTime))) := by
  have hrun := runOps_active ops s h
  refine ⟨by rw [hrun], by rw [hrun]; simp, ?_, ?_⟩
  · have hact : (runOps s ops).active = true := by rw [hrun]; simpa using h
    simp [ChromeTracer.endSession, hact]
  · intro tid
    rw [hrun]
    simp only [List.filter_append]
    congr 1
    rw [List.filter_map]
    congr 1
    apply List.filter_congr
    intro o _
    simp [Function.comp, opEvent_threadId]

theorem session_appends_exact_witness :
    (ChromeTracer.init.beginSession "t.json" 0).active = true ∧
    (runOps (ChromeTracer.init.beginSession "t.json" 0)
        [Op.instantEv "A" "c" 10 1, Op.beginEv "B" "c" 20 2]).events.length
      = (ChromeTracer.init.beginSession "t.json" 0).events.length + 2 :=
  ⟨rfl,
   (session_appends_exact (ChromeTracer.init.beginSession "t.json" 0)
     [Op.instantEv "A" "c" 10 1, Op.beginEv "B" "c" 20 2] rfl).2.1⟩

/-- C7.  A `ScopeTrace` captures `now()` at construction and its
destructor calls `addDurationEvent(name, category, capturedStart, now())`;
during an active session the appended record is a `Complete` record with
the guard's name and category, and when destruction happens `d`
microseconds after construction its `dur` is at least `d`. -/
theorem scopeTrace_emits_complete_event (n c : String) (t0 now : TimePoint)
    (tid : Nat) (s : ChromeTracer) (h : s.active = true) (d : ℚ)
    (hd : d ≤ toMicros (now - t0)) :
    (ScopeTrace.construct n c t0).start = t0 ∧
    (ScopeTrace.construct n c t0).destruct now tid s
      = { s with events := s.events ++ [mkDurationEvent n c t0 now s.startTime tid] } ∧
    (mkDurationEvent n c t0 now s.startTime tid).phase = 'X' ∧
    (mkDurationEvent n c t0 now s.startTime tid).name = n ∧
    (mkDurationEvent n c t0 now s.startTime tid).category = c ∧
    (mkDurationEvent n c t0 now s.startTime tid).durationUs = toMicros (now - t0) ∧
    d ≤ (mkDurationEvent n c t0 now s.startTime tid).durationUs := by
  refine ⟨rfl, ?_, rfl, rfl, rfl, rfl, hd⟩
  simp [ScopeTrace.destruct, ScopeTrace.construct, ChromeTracer.addDurationEvent,
    appendIfActive, h]

theorem scopeTrace_emits_complete_event_witness :
    (ChromeTracer.init.beginSession "t.json" 0).active = true ∧
    ((5 : ℚ) ≤ toMicros (6000 - 1000)) ∧
    (ScopeTrace.construct "Work" "function" 1000).destruct 6000 4
        (ChromeTracer.init.beginSession "t.json" 0)
      = { ChromeTracer.init.beginSession "t.json" 0 with
          events := [mkDurationEvent "Work" "function" 1000 6000 0 4] } :=
  ⟨rfl, by norm_num [toMicros],
   by
    have h := (scopeTrace_emits_complete_event "Work" "function" 1000 6000 4
      (ChromeTracer.init.beginSession "t.json" 0) rfl 5
      (by norm_num [toMicros])).2.1
    simpa using h⟩

theorem toMicros_eq_div (d : Int) : toMicros d = (d : ℚ) / 1000 := by
  rw [toMicros, Rat.mkRat_eq_div]
  norm_num

theorem toMicros_nonneg_iff (d : Int) : 0 ≤ toMicros d ↔ 0 ≤ d := by
  have h1000 : (0:ℚ) < 1000 := by norm_num
  rw [toMicros_eq_div, le_div_iff₀ h1000, zero_mul, Int.cast_nonneg]

/-- C8, counterexample.  A record appended after `beginSession` can have
a negative `ts`: `addDurationEvent` subtracts the session start from a
caller-supplied `start` reading, which may predate the session. -/
theorem ts_nonneg_counterexample :
    ((ChromeTracer.init.beginSession "t.json" 1000).addDurationEvent "A" "c" 0 0 0).events
      = [mkDurationEvent "A" "c" 0 0 1000 0] ∧
    (mkDurationEvent "A" "c" 0 0 1000 0).timestampUs < 0 := by
  exact ⟨rfl, by decide⟩

/-- C8, amended.  Records captured by the phase appends (begin, end,
instant), whose timestamp comes from a `now()` reading taken after
`beginSession`, have `ts ≥ 0`; a record built by `addDurationEvent` from
a caller-supplied `start` has `ts ≥ 0` exactly when `start` is not
earlier than the session start. -/
theorem ts_nonneg_amended (n c : String) (ph : Char) (a b now : TimePoint)
    (tid : Nat) (s : ChromeTracer) (h : s.active = true)
    (hnow : s.startTime ≤ now) :
    (s.addPhaseEvent n c ph now tid).events
      = s.events ++ [mkPhaseEvent n c ph now s.startTime tid] ∧
    0 ≤ (mkPhaseEvent n c ph now s.startTime tid).timestampUs ∧
    (s.addDurationEvent n c a b tid).events
      = s.events ++ [mkDurationEvent n c a b s.startTime tid] ∧
    (0 ≤ (mkDurationEvent n c a b s.startTime tid).timestampUs ↔ s.startTime ≤ a) := by
  refine ⟨?_, ?_, ?_, ?_⟩
  · simp [ChromeTracer.addPhaseEvent, appendIfActive, h]
  · show 0 ≤ toMicros (now - s.startTime)
    rw [toMicros_nonneg_iff, sub_nonneg]
    exact hnow
  · simp [ChromeTracer.addDurationEvent, appendIfActive, h]
  · show 0 ≤ toMicros (a - s.startTime) ↔ s.startTime ≤ a
    rw [toMicros_nonneg_iff, sub_nonneg]

theorem ts_nonneg_amended_witness :
    (ChromeTracer.init.beginSession "t.json" 1000).active = true ∧
    (ChromeTracer.init.beginSession "t.json" 1000).startTime ≤ (1500 : TimePoint) ∧
    0 ≤ (mkPhaseEvent "A" "c" 'I' 1500
          (ChromeTracer.init.beginSession "t.json" 1000).startTime 0).timestampUs :=
  ⟨rfl, by decide,
   (ts_nonneg_amended "A" "c" 'I' 0 0 1500 0
     (ChromeTracer.init.beginSession "t.json" 1000) rfl (by decide)).2.1⟩

/-- C9.  The code's `endSession` is `void` and streams to the
`ofstream` without ever inspecting its state: with an unopenable output
path it behaves exactly as with a writable one and hands its caller no
success/failure outcome.  The model reflects this: the result of
`endSession` carries the attempted write and no status of any kind, for
this failing path as for any other. -/
theorem endSession_silent_on_write_failure :
    (ChromeTracer.init.beginSession "/nonexistent-dir/t.json" 0).endSession
      = ({ ChromeTracer.init.beginSession "/nonexistent-dir/t.json" 0 with
           active := false },
         [("/nonexistent-dir/t.json",
           (ChromeTracer.init.beginSession "/nonexistent-dir/t.json" 0).writeToFile)]) := rfl


theorem skipWs_cons (c : Char) (r : List Char) (h : isWsChar c = false) :
    skipWs (c :: r) = c :: r := by
  simp [skipWs, h]

theorem strBody_clean (s : List Char) (h : s.all cleanChar = true) (rest : List Char) :
    strBody (s ++ '"' :: rest) = some rest := by
  induction s with
  | nil => simp [strBody, strBodyAux]
  | cons c t ih =>
    simp only [List.all_cons, Bool.and_eq_true] at h
    obtain ⟨hc, ht⟩ := h
    simp only [cleanChar, Bool.and_eq_true, Bool.not_eq_true', beq_eq_false_iff_ne,
      ne_eq, decide_eq_true_eq] at hc
    obtain ⟨⟨h1, h2⟩, h3⟩ := hc
    simp only [strBody, List.cons_append, strBodyAux, if_neg h1, if_neg h2, if_pos h3]
    exact ih ht

theorem digitChar_toNat (d : Nat) : (digitChar d).toNat = 48 + d % 10 := by
  have key : ∀ k, k < 10 → (Char.ofNat (48 + k)).toNat = 48 + k := by decide
  exact key (d % 10) (Nat.mod_lt _ (by norm_num))

theorem isDigitChar_digitChar (d : Nat) : isDigitChar (digitChar d) = true := by
  simp only [isDigitChar, digitChar_toNat, Bool.and_eq_true, decide_eq_true_eq]
  omega

theorem digitChar_not_ws (d : Nat) : isWsChar (digitChar d) = false := by
  have w1 : (' ' : Char).toNat = 32 := rfl
  have w2 : ('\n' : Char).toNat = 10 := rfl
  have w3 : ('\t' : Char).toNat = 9 := rfl
  have w4 : ('\r' : Char).toNat = 13 := rfl
  simp only [isWsChar, Bool.or_eq_false_iff, beq_eq_false_iff_ne, ne_eq]
  refine ⟨⟨⟨?_, ?_⟩, ?_⟩, ?_⟩ <;>
    · intro h
      have h2 := congrArg Char.toNat h
      rw [digitChar_toNat] at h2
      omega

theorem digitChar_ne (d : Nat) (c : Char) (h : ¬(48 ≤ c.toNat ∧ c.toNat ≤ 57)) :
    digitChar d ≠ c := by
  intro hEq
  have h2 := congrArg Char.toNat hEq
  rw [digitChar_toNat] at h2
  omega

theorem natDigitsAux_all (fuel : Nat) : ∀ n, (natDigitsAux fuel n).all isDigitChar = true := by
  induction fuel with
  | zero => intro n; simp [natDigitsAux]
  | succ f ih =>
    intro n
    simp only [natDigitsAux]
    by_cases h : n < 10
    · simp [h, isDigitChar_digitChar]
    · simp [h, List.all_append, ih, isDigitChar_digitChar]

theorem natDigitsAux_ne_nil (fuel n : Nat) (h : n < fuel) : natDigitsAux fuel n ≠ [] := by
  cases fuel with
  | zero => omega
  | succ f =>
    simp only [natDigitsAux]
    by_cases h10 : n < 10
    · simp [h10]
    · simp [h10]

theorem natDigitsAux_head_ne_zero (fuel : Nat) : ∀ n, n < fuel → n ≠ 0 →
    (natDigitsAux fuel n).head? ≠ some '0' := by
  induction fuel with
  | zero => intro n h; omega
  | succ f ih =>
    intro n h hn
    simp only [natDigitsAux]
    by_cases h10 : n < 10
    · simp only [if_pos h10, List.head?_cons, ne_eq, Option.some.injEq]
      intro hEq
      have h2 := congrArg Char.toNat hEq
      rw [digitChar_toNat] at h2
      have w0 : ('0' : Char).toNat = 48 := rfl
      omega
    · have hne := natDigitsAux_ne_nil f (n / 10) (by omega)
      obtain ⟨c, t, hct⟩ := List.exists_cons_of_ne_nil hne
      have ihh := ih (n / 10) (by omega) (by omega)
      rw [hct] at ihh
      simp only [if_neg h10, hct, List.cons_append, List.head?_cons]
      simpa using ihh

theorem dropWhile_digits (a : List Char) (h : a.all isDigitChar = true) (c : Char)
    (hc : isDigitChar c = false) (r : List Char) :
    (a ++ c :: r).dropWhile isDigitChar = c :: r := by
  induction a with
  | nil => simp [List.dropWhile, hc]
  | cons d t ih =>
    simp only [List.all_cons, Bool.and_eq_true] at h
    simp [List.dropWhile, h.1, ih h.2]

theorem parseInt_natDigits (n : Nat) (c : Char) (hc : isDigitChar c = false)
    (r : List Char) : parseInt (natDigits n ++ c :: r) = some (c :: r) := by
  by_cases h0 : n = 0
  · subst h0
    have h : natDigits 0 = ['0'] := by decide
    rw [h]
    simp [parseInt]
  · have hne := natDigitsAux_ne_nil (n + 1) n (by omega)
    obtain ⟨d, t, hdt⟩ := List.exists_cons_of_ne_nil hne
    have hall := natDigitsAux_all (n + 1) n
    have hhead := natDigitsAux_head_ne_zero (n + 1) n (by omega) h0
    rw [hdt] at hall hhead
    simp only [List.all_cons, Bool.and_eq_true] at hall
    simp only [List.head?_cons, ne_eq, Option.some.injEq] at hhead
    rw [natDigits, hdt]
    simp only [List.cons_append, parseInt, if_neg hhead, hall.1, if_pos]
    rw [dropWhile_digits t hall.2 c hc r]

theorem parseFrac_skip (c : Char) (hc : c ≠ '.') (r : List Char) :
    parseFrac (c :: r) = c :: r := by
  cases r with
  | nil => rfl
  | cons c2 r2 => simp [parseFrac, hc]

theorem parseFrac_pad3 (f : Nat) (c : Char) (hc : isDigitChar c = false)
    (r : List Char) : parseFrac ('.' :: (pad3 f ++ c :: r)) = c :: r := by
  simp only [pad3, List.cons_append, parseFrac, if_pos, isDigitChar_digitChar]
  simp [List.dropWhile, isDigitChar_digitChar, hc]

theorem parseExp_skip (c : Char) (hc1 : c ≠ 'e') (hc2 : c ≠ 'E') (r : List Char) :
    parseExp (c :: r) = c :: r := by
  simp [parseExp, hc1, hc2]

theorem parseNumCore_plain (n : Nat) (c : Char) (hc : isDigitChar c = false)
    (hdot : c ≠ '.') (he : c ≠ 'e') (hE : c ≠ 'E') (r : List Char) :
    parseNumCore (natDigits n ++ c :: r) = some (c :: r) := by
  simp [parseNumCore, parseInt_natDigits n c hc r, parseFrac_skip c hdot,
    parseExp_skip c he hE]

theorem parseNumCore_frac (n f : Nat) (c : Char) (hc : isDigitChar c = false)
    (he : c ≠ 'e') (hE : c ≠ 'E') (r : List Char) :
    parseNumCore (natDigits n ++ '.' :: (pad3 f ++ c :: r)) = some (c :: r) := by
  have hdotd : isDigitChar '.' = false := by decide
  have h1 : parseInt (natDigits n ++ '.' :: (pad3 f ++ c :: r))
      = some ('.' :: (pad3 f ++ c :: r)) := parseInt_natDigits n '.' hdotd _
  simp [parseNumCore, h1, parseFrac_pad3 f c hc r, parseExp_skip c he hE]

theorem parseNumber_natDigits (n : Nat) (c : Char) (hc : isDigitChar c = false)
    (hdot : c ≠ '.') (he : c ≠ 'e') (hE : c ≠ 'E') (r : List Char) :
    parseNumber (natDigits n ++ c :: r) = some (c :: r) := by
  have hne := natDigitsAux_ne_nil (n + 1) n (by omega)
  obtain ⟨d, t, hdt⟩ := List.exists_cons_of_ne_nil hne
  have hall := natDigitsAux_all (n + 1) n
  rw [hdt] at hall
  simp only [List.all_cons, Bool.and_eq_true] at hall
  have hd : d ≠ '-' := by
    intro hEq
    rw [hEq] at hall
    exact absurd hall.1 (by decide)
  have hcore := parseNumCore_plain n c hc hdot he hE r
  rw [natDigits, hdt] at hcore ⊢
  simp only [List.cons_append, parseNumber, if_neg hd]
  simpa [List.cons_append] using hcore

theorem parseNumber_natDigits_frac (n f : Nat) (c : Char) (hc : isDigitChar c = false)
    (he : c ≠ 'e') (hE : c ≠ 'E') (r : List Char) :
    parseNumber (natDigits n ++ '.' :: (pad3 f ++ c :: r)) = some (c :: r) := by
  have hne := natDigitsAux_ne_nil (n + 1) n (by omega)
  obtain ⟨d, t, hdt⟩ := List.exists_cons_of_ne_nil hne
  have hall := natDigitsAux_all (n + 1) n
  rw [hdt] at hall
  simp only [List.all_cons, Bool.and_eq_true] at hall
  have hd : d ≠ '-' := by
    intro hEq
    rw [hEq] at hall
    exact absurd hall.1 (by decide)
  have hcore := parseNumCore_frac n f c hc he hE r
  rw [natDigits, hdt] at hcore ⊢
  simp only [List.cons_append, parseNumber, if_neg hd]
  simpa [List.cons_append] using hcore

theorem data_append (a b : String) : (a ++ b).data = a.data ++ b.data := rfl

theorem data_mk (l : List Char) : (String.mk l).data = l := rfl

theorem data_empty : ("" : String).data = [] := rfl

theorem data_renderNat (n : Nat) : (renderNat n).data = natDigits n := rfl

theorem natDigits_head (n : Nat) :
    ∃ d t, natDigits n = d :: t ∧ isDigitChar d = true := by
  have hne := natDigitsAux_ne_nil (n + 1) n (by omega)
  obtain ⟨d, t, hdt⟩ := List.exists_cons_of_ne_nil hne
  have hall := natDigitsAux_all (n + 1) n
  rw [hdt] at hall
  simp only [List.all_cons, Bool.and_eq_true] at hall
  exact ⟨d, t, hdt, hall.1⟩

theorem parseNumber_renderNum (q : ℚ) (c : Char) (hc : isDigitChar c = false)
    (hdot : c ≠ '.') (he : c ≠ 'e') (hE : c ≠ 'E') (r : List Char) :
    ∃ d t, (renderNum q).data = d :: t ∧ (d = '-' ∨ isDigitChar d = true) ∧
      parseNumber ((renderNum q).data ++ c :: r) = some (c :: r) := by
  obtain ⟨d0, t0, hdt, hd0⟩ := natDigits_head (((q.num * 1000).fdiv (q.den : Int)).natAbs / 1000)
  by_cases hm : (q.num * 1000).fdiv (q.den : Int) < 0 <;>
    by_cases hf : ((q.num * 1000).fdiv (q.den : Int)).natAbs % 1000 = 0
  · have hdata : (renderNum q).data
        = '-' :: (natDigits (((q.num * 1000).fdiv (q.den : Int)).natAbs / 1000) ++ []) := by
      simp [renderNum, hm, hf, data_append, data_mk, data_empty]
    refine ⟨'-', _, hdata, Or.inl rfl, ?_⟩
    rw [hdata]
    simp only [List.append_nil, List.cons_append, parseNumber, if_pos rfl]
    have := parseNumCore_plain (((q.num * 1000).fdiv (q.den : Int)).natAbs / 1000) c hc hdot he hE r
    exact this
  · have hdata : (renderNum q).data
        = '-' :: (natDigits (((q.num * 1000).fdiv (q.den : Int)).natAbs / 1000)
            ++ '.' :: pad3 (((q.num * 1000).fdiv (q.den : Int)).natAbs % 1000)) := by
      simp [renderNum, hm, hf, data_append, data_mk, data_empty]
    refine ⟨'-', _, hdata, Or.inl rfl, ?_⟩
    rw [hdata]
    simp only [List.cons_append, List.append_assoc, parseNumber, if_pos rfl]
    have := parseNumCore_frac (((q.num * 1000).fdiv (q.den : Int)).natAbs / 1000)
      (((q.num * 1000).fdiv (q.den : Int)).natAbs % 1000) c hc he hE r
    simpa [List.append_assoc] using this
  · have hdata : (renderNum q).data
        = natDigits (((q.num * 1000).fdiv (q.den : Int)).natAbs / 1000) ++ [] := by
      simp [renderNum, hm, hf, data_append, data_mk, data_empty]
    refine ⟨d0, t0 ++ [], by rw [hdata, hdt]; rfl, Or.inr hd0, ?_⟩
    rw [hdata]
    simp only [List.append_nil]
    exact parseNumber_natDigits _ c hc hdot he hE r
  · have hdata : (renderNum q).data
        = natDigits (((q.num * 1000).fdiv (q.den : Int)).natAbs / 1000)
            ++ '.' :: pad3 (((q.num * 1000).fdiv (q.den : Int)).natAbs % 1000) := by
      simp [renderNum, hm, hf, data_append, data_mk, data_empty]
    refine ⟨d0, t0 ++ '.' :: pad3 (((q.num * 1000).fdiv (q.den : Int)).natAbs % 1000),
      by rw [hdata, hdt]; rfl, Or.inr hd0, ?_⟩
    rw [hdata]
    have := parseNumber_natDigits_frac (((q.num * 1000).fdiv (q.den : Int)).natAbs / 1000)
      (((q.num * 1000).fdiv (q.den : Int)).natAbs % 1000) c hc he hE r
    simpa [List.append_assoc] using this

theorem digit_head_conds (d : Char) (h : isDigitChar d = true) :
    isWsChar d = false ∧ d ≠ '[' ∧ d ≠ '"' ∧ d ≠ 't' ∧ d ≠ 'f' ∧ d ≠ 'n' ∧
      d ≠ lbrace := by
  simp only [isDigitChar, Bool.and_eq_true, decide_eq_true_eq] at h
  refine ⟨?_, ?_, ?_, ?_, ?_, ?_, ?_⟩
  · simp only [isWsChar, Bool.or_eq_false_iff, beq_eq_false_iff_ne, ne_eq]
    refine ⟨⟨⟨?_, ?_⟩, ?_⟩, ?_⟩ <;> (intro hEq; rw [hEq] at h; revert h; decide)
  all_goals intro hEq; rw [hEq] at h; revert h; decide

theorem parseJ_value_fallthrough (fuel : Nat) (c : Char) (r : List Char)
    (hws : isWsChar c = false) (h1 : c ≠ '[') (h2 : c ≠ '"') (h3 : c ≠ 't')
    (h4 : c ≠ 'f') (h5 : c ≠ 'n') (h6 : c ≠ lbrace) :
    parseJ (fuel + 1) .value (c :: r) = parseNumber (c :: r) := by
  simp only [parseJ, skipWs_cons c r hws]
  simp [h1, h2, h3, h4, h5, h6]

theorem parseJ_value_string (fuel : Nat) (s : List Char)
    (h : s.all cleanChar = true) (rest : List Char) :
    parseJ (fuel + 1) .value ('"' :: (s ++ '"' :: rest)) = some rest := by
  have hws : isWsChar '"' = false := by decide
  simp only [parseJ, skipWs_cons _ _ hws]
  simp [strBody_clean s h rest]

theorem parseJ_value_renderNum (fuel : Nat) (q : ℚ) (c : Char)
    (hc : isDigitChar c = false) (hdot : c ≠ '.') (he : c ≠ 'e') (hE : c ≠ 'E')
    (r : List Char) :
    parseJ (fuel + 1) .value ((renderNum q).data ++ c :: r) = some (c :: r) := by
  obtain ⟨d, t, hdt, hd, hparse⟩ := parseNumber_renderNum q c hc hdot he hE r
  rw [hdt] at hparse ⊢
  rcases hd with hd | hd
  · subst hd
    rw [List.cons_append, parseJ_value_fallthrough fuel '-' _ (by decide) (by decide)
      (by decide) (by decide) (by decide) (by decide) (by decide)]
    simpa [List.cons_append] using hparse
  · obtain ⟨hws, h1, h2, h3, h4, h5, h6⟩ := digit_head_conds d hd
    rw [List.cons_append, parseJ_value_fallthrough fuel d _ hws h1 h2 h3 h4 h5 h6]
    simpa [List.cons_append] using hparse

theorem parseJ_value_natDigits (fuel n : Nat) (c : Char)
    (hc : isDigitChar c = false) (hdot : c ≠ '.') (he : c ≠ 'e') (hE : c ≠ 'E')
    (r : List Char) :
    parseJ (fuel + 1) .value (natDigits n ++ c :: r) = some (c :: r) := by
  obtain ⟨d, t, hdt, hd⟩ := natDigits_head n
  have hparse := parseNumber_natDigits n c hc hdot he hE r
  rw [hdt] at hparse ⊢
  obtain ⟨hws, h1, h2, h3, h4, h5, h6⟩ := digit_head_conds d hd
  rw [List.cons_append, parseJ_value_fallthrough fuel d _ hws h1 h2 h3 h4 h5 h6]
  simpa [List.cons_append] using hparse

theorem parseJ_members_step_comma (fuel : Nat) (k V rest : List Char)
    (hk : k.all cleanChar = true)
    (hV : parseJ (fuel + 1) .value V = some (',' :: rest)) :
    parseJ (fuel + 2) .members ('"' :: (k ++ '"' :: ':' :: V))
      = parseJ (fuel + 1) .members rest := by
  conv_lhs => rw [parseJ]
  simp [skipWs, isWsChar, strBody_clean k hk, hV]

theorem parseJ_members_step_end (fuel : Nat) (k V rest : List Char)
    (hk : k.all cleanChar = true)
    (hV : parseJ (fuel + 1) .value V = some (rbrace :: rest)) :
    parseJ (fuel + 2) .members ('"' :: (k ++ '"' :: ':' :: V)) = some rest := by
  conv_lhs => rw [parseJ]
  simp [skipWs, isWsChar, strBody_clean k hk, hV, rbrace]

theorem data_singleton (c : Char) : (String.singleton c).data = [c] := rfl

theorem phaseOk_clean (c : Char) (h : phaseOk c = true) :
    List.all [c] cleanChar = true := by
  simp only [phaseOk, Bool.or_eq_true, beq_iff_eq] at h
  rcases h with ((h | h) | h) | h <;> subst h <;> decide

set_option maxHeartbeats 4000000 in
theorem renderEvent_parses (ev : TraceEvent) (hname : cleanStr ev.name = true)
    (hcat : cleanStr ev.category = true) (hph : phaseOk ev.phase = true)
    (fuel : Nat) (rest : List Char) :
    parseJ (fuel + 9) .value ((renderEvent ev).data ++ rest) = some rest := by
  have hnameD : ev.name.data.all cleanChar = true := hname
  have hcatD : ev.category.data.all cleanChar = true := hcat
  have hphD : List.all [ev.phase] cleanChar = true := phaseOk_clean ev.phase hph
  have h0 : natDigits 0 = ['0'] := by decide
  by_cases hX : ev.phase = 'X'
  case pos =>
    have hcanon : (renderEvent ev).data ++ rest
        = '\x7b' :: ('\"' :: 'n' :: 'a' :: 'm' :: 'e' :: '\"' :: ':' :: '\"' :: (ev.name.data ++ '\"' :: ',' :: ('\"' :: 'c' :: 'a' :: 't' :: '\"' :: ':' :: '\"' :: (ev.category.data ++ '\"' :: ',' :: ('\"' :: 'p' :: 'h' :: '\"' :: ':' :: '\"' :: ev.phase :: '\"' :: ',' :: ('\"' :: 't' :: 's' :: '\"' :: ':' :: ((renderNum ev.timestampUs).data ++ ',' :: ('\"' :: 'p' :: 'i' :: 'd' :: '\"' :: ':' :: '0' :: ',' :: ('\"' :: 't' :: 'i' :: 'd' :: '\"' :: ':' :: (natDigits ev.threadId ++ ',' :: ('\"' :: 'd' :: 'u' :: 'r' :: '\"' :: ':' :: ((renderNum ev.durationUs).data ++ '\x7d' :: rest)))))))))))) := by
      simp only [renderEvent, if_pos hX, data_append, data_mk, data_singleton,
        data_renderNat, List.cons_append, List.nil_append, List.append_assoc,
        List.singleton_append]
    rw [hcanon]
    have h7 := parseJ_members_step_end fuel ['d', 'u', 'r']
      ((renderNum ev.durationUs).data ++ '\x7d' :: rest) rest (by decide)
      (parseJ_value_renderNum fuel ev.durationUs '\x7d' (by decide) (by decide)
        (by decide) (by decide) rest)
    have h6 := parseJ_members_step_comma (fuel + 1) ['t', 'i', 'd']
      (natDigits ev.threadId ++ ',' :: ('\"' :: 'd' :: 'u' :: 'r' :: '\"' :: ':' :: ((renderNum ev.durationUs).data ++ '\x7d' :: rest)))
      ('\"' :: 'd' :: 'u' :: 'r' :: '\"' :: ':' :: ((renderNum ev.durationUs).data ++ '\x7d' :: rest)) (by decide)
      (parseJ_value_natDigits (fuel + 1) ev.threadId ',' (by decide) (by decide)
        (by decide) (by decide) ('\"' :: 'd' :: 'u' :: 'r' :: '\"' :: ':' :: ((renderNum ev.durationUs).data ++ '\x7d' :: rest)))
    have h5 := parseJ_members_step_comma (fuel + 2) ['p', 'i', 'd']
      (natDigits 0 ++ ',' :: ('\"' :: 't' :: 'i' :: 'd' :: '\"' :: ':' :: (natDigits ev.threadId ++ ',' :: ('\"' :: 'd' :: 'u' :: 'r' :: '\"' :: ':' :: ((renderNum ev.durationUs).data ++ '\x7d' :: rest)))))
      ('\"' :: 't' :: 'i' :: 'd' :: '\"' :: ':' :: (natDigits ev.threadId ++ ',' :: ('\"' :: 'd' :: 'u' :: 'r' :: '\"' :: ':' :: ((renderNum ev.durationUs).data ++ '\x7d' :: rest)))) (by decide)
      (parseJ_value_natDigits (fuel + 2) 0 ',' (by decide) (by decide)
        (by decide) (by decide) ('\"' :: 't' :: 'i' :: 'd' :: '\"' :: ':' :: (natDigits ev.threadId ++ ',' :: ('\"' :: 'd' :: 'u' :: 'r' :: '\"' :: ':' :: ((renderNum ev.durationUs).data ++ '\x7d' :: rest)))))
    have h4 := parseJ_members_step_comma (fuel + 3) ['t', 's']
      ((renderNum ev.timestampUs).data ++ ',' :: ('\"' :: 'p' :: 'i' :: 'd' :: '\"' :: ':' :: '0' :: ',' :: ('\"' :: 't' :: 'i' :: 'd' :: '\"' :: ':' :: (natDigits ev.threadId ++ ',' :: ('\"' :: 'd' :: 'u' :: 'r' :: '\"' :: ':' :: ((renderNum ev.durationUs).data ++ '\x7d' :: rest))))))
      ('\"' :: 'p' :: 'i' :: 'd' :: '\"' :: ':' :: '0' :: ',' :: ('\"' :: 't' :: 'i' :: 'd' :: '\"' :: ':' :: (natDigits ev.threadId ++ ',' :: ('\"' :: 'd' :: 'u' :: 'r' :: '\"' :: ':' :: ((renderNum ev.durationUs).data ++ '\x7d' :: rest))))) (by decide)
      (parseJ_value_renderNum (fuel + 3) ev.timestampUs ',' (by decide) (by decide)
        (by decide) (by decide) ('\"' :: 'p' :: 'i' :: 'd' :: '\"' :: ':' :: '0' :: ',' :: ('\"' :: 't' :: 'i' :: 'd' :: '\"' :: ':' :: (natDigits ev.threadId ++ ',' :: ('\"' :: 'd' :: 'u' :: 'r' :: '\"' :: ':' :: ((renderNum ev.durationUs).data ++ '\x7d' :: rest))))))
    have h3 := parseJ_members_step_comma (fuel + 4) ['p', 'h']
      ('\"' :: ([ev.phase] ++ '\"' :: ',' :: ('\"' :: 't' :: 's' :: '\"' :: ':' :: ((renderNum ev.timestampUs).data ++ ',' :: ('\"' :: 'p' :: 'i' :: 'd' :: '\"' :: ':' :: '0' :: ',' :: ('\"' :: 't' :: 'i' :: 'd' :: '\"' :: ':' :: (natDigits ev.threadId ++ ',' :: ('\"' :: 'd' :: 'u' :: 'r' :: '\"' :: ':' :: ((renderNum ev.durationUs).data ++ '\x7d' :: rest))))))))) ('\"' :: 't' :: 's' :: '\"' :: ':' :: ((renderNum ev.timestampUs).data ++ ',' :: ('\"' :: 'p' :: 'i' :: 'd' :: '\"' :: ':' :: '0' :: ',' :: ('\"' :: 't' :: 'i' :: 'd' :: '\"' :: ':' :: (natDigits ev.threadId ++ ',' :: ('\"' :: 'd' :: 'u' :: 'r' :: '\"' :: ':' :: ((renderNum ev.durationUs).data ++ '\x7d' :: rest))))))) (by decide)
      (parseJ_value_string (fuel + 4) [ev.phase] hphD (',' :: ('\"' :: 't' :: 's' :: '\"' :: ':' :: ((renderNum ev.timestampUs).data ++ ',' :: ('\"' :: 'p' :: 'i' :: 'd' :: '\"' :: ':' :: '0' :: ',' :: ('\"' :: 't' :: 'i' :: 'd' :: '\"' :: ':' :: (natDigits ev.threadId ++ ',' :: ('\"' :: 'd' :: 'u' :: 'r' :: '\"' :: ':' :: ((renderNum ev.durationUs).data ++ '\x7d' :: rest)))))))))
    have h2 := parseJ_members_step_comma (fuel + 5) ['c', 'a', 't']
      ('\"' :: (ev.category.data ++ '\"' :: ',' :: ('\"' :: 'p' :: 'h' :: '\"' :: ':' :: '\"' :: ev.phase :: '\"' :: ',' :: ('\"' :: 't' :: 's' :: '\"' :: ':' :: ((renderNum ev.timestampUs).data ++ ',' :: ('\"' :: 'p' :: 'i' :: 'd' :: '\"' :: ':' :: '0' :: ',' :: ('\"' :: 't' :: 'i' :: 'd' :: '\"' :: ':' :: (natDigits ev.threadId ++ ',' :: ('\"' :: 'd' :: 'u' :: 'r' :: '\"' :: ':' :: ((renderNum ev.durationUs).data ++ '\x7d' :: rest)))))))))) ('\"' :: 'p' :: 'h' :: '\"' :: ':' :: '\"' :: ev.phase :: '\"' :: ',' :: ('\"' :: 't' :: 's' :: '\"' :: ':' :: ((renderNum ev.timestampUs).data ++ ',' :: ('\"' :: 'p' :: 'i' :: 'd' :: '\"' :: ':' :: '0' :: ',' :: ('\"' :: 't' :: 'i' :: 'd' :: '\"' :: ':' :: (natDigits ev.threadId ++ ',' :: ('\"' :: 'd' :: 'u' :: 'r' :: '\"' :: ':' :: ((renderNum ev.durationUs).data ++ '\x7d' :: rest)))))))) (by decide)
      (parseJ_value_string (fuel + 5) ev.category.data hcatD (',' :: ('\"' :: 'p' :: 'h' :: '\"' :: ':' :: '\"' :: ev.phase :: '\"' :: ',' :: ('\"' :: 't' :: 's' :: '\"' :: ':' :: ((renderNum ev.timestampUs).data ++ ',' :: ('\"' :: 'p' :: 'i' :: 'd' :: '\"' :: ':' :: '0' :: ',' :: ('\"' :: 't' :: 'i' :: 'd' :: '\"' :: ':' :: (natDigits ev.threadId ++ ',' :: ('\"' :: 'd' :: 'u' :: 'r' :: '\"' :: ':' :: ((renderNum ev.durationUs).data ++ '\x7d' :: rest))))))))))
    have h1 := parseJ_members_step_comma (fuel + 6) ['n', 'a', 'm', 'e']
      ('\"' :: (ev.name.data ++ '\"' :: ',' :: ('\"' :: 'c' :: 'a' :: 't' :: '\"' :: ':' :: '\"' :: (ev.category.data ++ '\"' :: ',' :: ('\"' :: 'p' :: 'h' :: '\"' :: ':' :: '\"' :: ev.phase :: '\"' :: ',' :: ('\"' :: 't' :: 's' :: '\"' :: ':' :: ((renderNum ev.timestampUs).data ++ ',' :: ('\"' :: 'p' :: 'i' :: 'd' :: '\"' :: ':' :: '0' :: ',' :: ('\"' :: 't' :: 'i' :: 'd' :: '\"' :: ':' :: (natDigits ev.threadId ++ ',' :: ('\"' :: 'd' :: 'u' :: 'r' :: '\"' :: ':' :: ((renderNum ev.durationUs).data ++ '\x7d' :: rest)))))))))))) ('\"' :: 'c' :: 'a' :: 't' :: '\"' :: ':' :: '\"' :: (ev.category.data ++ '\"' :: ',' :: ('\"' :: 'p' :: 'h' :: '\"' :: ':' :: '\"' :: ev.phase :: '\"' :: ',' :: ('\"' :: 't' :: 's' :: '\"' :: ':' :: ((renderNum ev.timestampUs).data ++ ',' :: ('\"' :: 'p' :: 'i' :: 'd' :: '\"' :: ':' :: '0' :: ',' :: ('\"' :: 't' :: 'i' :: 'd' :: '\"' :: ':' :: (natDigits ev.threadId ++ ',' :: ('\"' :: 'd' :: 'u' :: 'r' :: '\"' :: ':' :: ((renderNum ev.durationUs).data ++ '\x7d' :: rest)))))))))) (by decide)
      (parseJ_value_string (fuel + 6) ev.name.data hnameD (',' :: ('\"' :: 'c' :: 'a' :: 't' :: '\"' :: ':' :: '\"' :: (ev.category.data ++ '\"' :: ',' :: ('\"' :: 'p' :: 'h' :: '\"' :: ':' :: '\"' :: ev.phase :: '\"' :: ',' :: ('\"' :: 't' :: 's' :: '\"' :: ':' :: ((renderNum ev.timestampUs).data ++ ',' :: ('\"' :: 'p' :: 'i' :: 'd' :: '\"' :: ':' :: '0' :: ',' :: ('\"' :: 't' :: 'i' :: 'd' :: '\"' :: ':' :: (natDigits ev.threadId ++ ',' :: ('\"' :: 'd' :: 'u' :: 'r' :: '\"' :: ':' :: ((renderNum ev.durationUs).data ++ '\x7d' :: rest))))))))))))
    simp only [List.cons_append, List.nil_append, List.append_assoc,
      List.singleton_append, h0,
      show fuel + 6 + 2 = fuel + 8 from rfl, show fuel + 6 + 1 = fuel + 7 from rfl,
      show fuel + 5 + 2 = fuel + 7 from rfl, show fuel + 5 + 1 = fuel + 6 from rfl,
      show fuel + 4 + 2 = fuel + 6 from rfl, show fuel + 4 + 1 = fuel + 5 from rfl,
      show fuel + 3 + 2 = fuel + 5 from rfl, show fuel + 3 + 1 = fuel + 4 from rfl,
      show fuel + 2 + 2 = fuel + 4 from rfl, show fuel + 2 + 1 = fuel + 3 from rfl,
      show fuel + 1 + 2 = fuel + 3 from rfl, show fuel + 1 + 1 = fuel + 2 from rfl]
      at h1 h2 h3 h4 h5 h6 h7
    rw [show fuel + 9 = (fuel + 8) + 1 from rfl]
    conv_lhs => rw [parseJ]
    simp [skipWs, isWsChar, lbrace, rbrace, h1, h2, h3, h4, h5, h6, h7]
  case neg =>
    have hcanon : (renderEvent ev).data ++ rest
        = '\x7b' :: ('\"' :: 'n' :: 'a' :: 'm' :: 'e' :: '\"' :: ':' :: '\"' :: (ev.name.data ++ '\"' :: ',' :: ('\"' :: 'c' :: 'a' :: 't' :: '\"' :: ':' :: '\"' :: (ev.category.data ++ '\"' :: ',' :: ('\"' :: 'p' :: 'h' :: '\"' :: ':' :: '\"' :: ev.phase :: '\"' :: ',' :: ('\"' :: 't' :: 's' :: '\"' :: ':' :: ((renderNum ev.timestampUs).data ++ ',' :: ('\"' :: 'p' :: 'i' :: 'd' :: '\"' :: ':' :: '0' :: ',' :: ('\"' :: 't' :: 'i' :: 'd' :: '\"' :: ':' :: (natDigits ev.threadId ++ '\x7d' :: rest)))))))))) := by
      simp only [renderEvent, if_neg hX, data_append, data_mk, data_singleton,
        data_renderNat, List.cons_append, List.nil_append, List.append_assoc,
        List.singleton_append]
    rw [hcanon]
    have h6 := parseJ_members_step_end (fuel + 1) ['t', 'i', 'd']
      (natDigits ev.threadId ++ '\x7d' :: rest) rest (by decide)
      (parseJ_value_natDigits (fuel + 1) ev.threadId '\x7d' (by decide) (by decide)
        (by decide) (by decide) rest)
    have h5 := parseJ_members_step_comma (fuel + 2) ['p', 'i', 'd']
      (natDigits 0 ++ ',' :: ('\"' :: 't' :: 'i' :: 'd' :: '\"' :: ':' :: (natDigits ev.threadId ++ '\x7d' :: rest)))
      ('\"' :: 't' :: 'i' :: 'd' :: '\"' :: ':' :: (natDigits ev.threadId ++ '\x7d' :: rest)) (by decide)
      (parseJ_value_natDigits (fuel + 2) 0 ',' (by decide) (by decide)
        (by decide) (by decide) ('\"' :: 't' :: 'i' :: 'd' :: '\"' :: ':' :: (natDigits ev.threadId ++ '\x7d' :: rest)))
    have h4 := parseJ_members_step_comma (fuel + 3) ['t', 's']
      ((renderNum ev.timestampUs).data ++ ',' :: ('\"' :: 'p' :: 'i' :: 'd' :: '\"' :: ':' :: '0' :: ',' :: ('\"' :: 't' :: 'i' :: 'd' :: '\"' :: ':' :: (natDigits ev.threadId ++ '\x7d' :: rest))))
      ('\"' :: 'p' :: 'i' :: 'd' :: '\"' :: ':' :: '0' :: ',' :: ('\"' :: 't' :: 'i' :: 'd' :: '\"' :: ':' :: (natDigits ev.threadId ++ '\x7d' :: rest))) (by decide)
      (parseJ_value_renderNum (fuel + 3) ev.timestampUs ',' (by decide) (by decide)
        (by decide) (by decide) ('\"' :: 'p' :: 'i' :: 'd' :: '\"' :: ':' :: '0' :: ',' :: ('\"' :: 't' :: 'i' :: 'd' :: '\"' :: ':' :: (natDigits ev.threadId ++ '\x7d' :: rest))))
    have h3 := parseJ_members_step_comma (fuel + 4) ['p', 'h']
      ('\"' :: ([ev.phase] ++ '\"' :: ',' :: ('\"' :: 't' :: 's' :: '\"' :: ':' :: ((renderNum ev.timestampUs).data ++ ',' :: ('\"' :: 'p' :: 'i' :: 'd' :: '\"' :: ':' :: '0' :: ',' :: ('\"' :: 't' :: 'i' :: 'd' :: '\"' :: ':' :: (natDigits ev.threadId ++ '\x7d' :: rest))))))) ('\"' :: 't' :: 's' :: '\"' :: ':' :: ((renderNum ev.timestampUs).data ++ ',' :: ('\"' :: 'p' :: 'i' :: 'd' :: '\"' :: ':' :: '0' :: ',' :: ('\"' :: 't' :: 'i' :: 'd' :: '\"' :: ':' :: (natDigits ev.threadId ++ '\x7d' :: rest))))) (by decide)
      (parseJ_value_string (fuel + 4) [ev.phase] hphD (',' :: ('\"' :: 't' :: 's' :: '\"' :: ':' :: ((renderNum ev.timestampUs).data ++ ',' :: ('\"' :: 'p' :: 'i' :: 'd' :: '\"' :: ':' :: '0' :: ',' :: ('\"' :: 't' :: 'i' :: 'd' :: '\"' :: ':' :: (natDigits ev.threadId ++ '\x7d' :: rest)))))))
    have h2 := parseJ_members_step_comma (fuel + 5) ['c', 'a', 't']
      ('\"' :: (ev.category.data ++ '\"' :: ',' :: ('\"' :: 'p' :: 'h' :: '\"' :: ':' :: '\"' :: ev.phase :: '\"' :: ',' :: ('\"' :: 't' :: 's' :: '\"' :: ':' :: ((renderNum ev.timestampUs).data ++ ',' :: ('\"' :: 'p' :: 'i' :: 'd' :: '\"' :: ':' :: '0' :: ',' :: ('\"' :: 't' :: 'i' :: 'd' :: '\"' :: ':' :: (natDigits ev.threadId ++ '\x7d' :: rest)))))))) ('\"' :: 'p' :: 'h' :: '\"' :: ':' :: '\"' :: ev.phase :: '\"' :: ',' :: ('\"' :: 't' :: 's' :: '\"' :: ':' :: ((renderNum ev.timestampUs).data ++ ',' :: ('\"' :: 'p' :: 'i' :: 'd' :: '\"' :: ':' :: '0' :: ',' :: ('\"' :: 't' :: 'i' :: 'd' :: '\"' :: ':' :: (natDigits ev.threadId ++ '\x7d' :: rest)))))) (by decide)
      (parseJ_value_string (fuel + 5) ev.category.data hcatD (',' :: ('\"' :: 'p' :: 'h' :: '\"' :: ':' :: '\"' :: ev.phase :: '\"' :: ',' :: ('\"' :: 't' :: 's' :: '\"' :: ':' :: ((renderNum ev.timestampUs).data ++ ',' :: ('\"' :: 'p' :: 'i' :: 'd' :: '\"' :: ':' :: '0' :: ',' :: ('\"' :: 't' :: 'i' :: 'd' :: '\"' :: ':' :: (natDigits ev.threadId ++ '\x7d' :: rest))))))))
    have h1 := parseJ_members_step_comma (fuel + 6) ['n', 'a', 'm', 'e']
      ('\"' :: (ev.name.data ++ '\"' :: ',' :: ('\"' :: 'c' :: 'a' :: 't' :: '\"' :: ':' :: '\"' :: (ev.category.data ++ '\"' :: ',' :: ('\"' :: 'p' :: 'h' :: '\"' :: ':' :: '\"' :: ev.phase :: '\"' :: ',' :: ('\"' :: 't' :: 's' :: '\"' :: ':' :: ((renderNum ev.timestampUs).data ++ ',' :: ('\"' :: 'p' :: 'i' :: 'd' :: '\"' :: ':' :: '0' :: ',' :: ('\"' :: 't' :: 'i' :: 'd' :: '\"' :: ':' :: (natDigits ev.threadId ++ '\x7d' :: rest)))))))))) ('\"' :: 'c' :: 'a' :: 't' :: '\"' :: ':' :: '\"' :: (ev.category.data ++ '\"' :: ',' :: ('\"' :: 'p' :: 'h' :: '\"' :: ':' :: '\"' :: ev.phase :: '\"' :: ',' :: ('\"' :: 't' :: 's' :: '\"' :: ':' :: ((renderNum ev.timestampUs).data ++ ',' :: ('\"' :: 'p' :: 'i' :: 'd' :: '\"' :: ':' :: '0' :: ',' :: ('\"' :: 't' :: 'i' :: 'd' :: '\"' :: ':' :: (natDigits ev.threadId ++ '\x7d' :: rest)))))))) (by decide)
      (parseJ_value_string (fuel + 6) ev.name.data hnameD (',' :: ('\"' :: 'c' :: 'a' :: 't' :: '\"' :: ':' :: '\"' :: (ev.category.data ++ '\"' :: ',' :: ('\"' :: 'p' :: 'h' :: '\"' :: ':' :: '\"' :: ev.phase :: '\"' :: ',' :: ('\"' :: 't' :: 's' :: '\"' :: ':' :: ((renderNum ev.timestampUs).data ++ ',' :: ('\"' :: 'p' :: 'i' :: 'd' :: '\"' :: ':' :: '0' :: ',' :: ('\"' :: 't' :: 'i' :: 'd' :: '\"' :: ':' :: (natDigits ev.threadId ++ '\x7d' :: rest))))))))))
    simp only [List.cons_append, List.nil_append, List.append_assoc,
      List.singleton_append, h0,
      show fuel + 6 + 2 = fuel + 8 from rfl, show fuel + 6 + 1 = fuel + 7 from rfl,
      show fuel + 5 + 2 = fuel + 7 from rfl, show fuel + 5 + 1 = fuel + 6 from rfl,
      show fuel + 4 + 2 = fuel + 6 from rfl, show fuel + 4 + 1 = fuel + 5 from rfl,
      show fuel + 3 + 2 = fuel + 5 from rfl, show fuel + 3 + 1 = fuel + 4 from rfl,
      show fuel + 2 + 2 = fuel + 4 from rfl, show fuel + 2 + 1 = fuel + 3 from rfl,
      show fuel + 1 + 2 = fuel + 3 from rfl, show fuel + 1 + 1 = fuel + 2 from rfl]
      at h1 h2 h3 h4 h5 h6
    rw [show fuel + 9 = (fuel + 8) + 1 from rfl]
    conv_lhs => rw [parseJ]
    simp [skipWs, isWsChar, lbrace, rbrace, h1, h2, h3, h4, h5, h6]

theorem renderEvent_head (e : TraceEvent) :
    ∃ tl, (renderEvent e).data = '\x7b' :: tl := ⟨_, rfl⟩

theorem eventsTail_length (t : List TraceEvent) :
    t.length ≤ (eventsTail t).data.length := by
  induction t with
  | nil => exact Nat.zero_le _
  | cons f t' ih =>
    obtain ⟨tl, htl⟩ := renderEvent_head f
    simp only [eventsTail, data_append, List.length_append, List.length_cons, htl]
    omega

theorem eventsBody_length (evs : List TraceEvent) :
    evs.length ≤ (eventsBody evs).data.length := by
  cases evs with
  | nil => exact Nat.zero_le _
  | cons e t =>
    obtain ⟨tl, htl⟩ := renderEvent_head e
    have ht := eventsTail_length t
    simp only [eventsBody, data_append, List.length_append, List.length_cons, htl]
    omega

theorem eventsBody_parses :
    ∀ (t : List TraceEvent) (e : TraceEvent),
      ((e :: t).all fun ev =>
          cleanStr ev.name && cleanStr ev.category && phaseOk ev.phase) = true →
      ∀ (fuel : Nat) (rest : List Char),
        parseJ ((e :: t).length + (fuel + 9)) .elems
            ((eventsBody (e :: t)).data ++ ']' :: rest)
          = some rest := by
  intro t
  induction t with
  | nil =>
    intro e hclean fuel rest
    simp only [List.all_cons, List.all_nil, Bool.and_eq_true, Bool.and_true] at hclean
    obtain ⟨⟨hn, hc⟩, hp⟩ := hclean
    have hval := renderEvent_parses e hn hc hp fuel (']' :: rest)
    have hbody : (eventsBody [e]).data ++ ']' :: rest
        = (renderEvent e).data ++ ']' :: rest := by
      simp [eventsBody, eventsTail, data_append]
    rw [hbody]
    rw [show [e].length + (fuel + 9) = (fuel + 9) + 1 from by simp; omega]
    conv_lhs => rw [parseJ]
    rw [hval]
    simp [skipWs, isWsChar]
  | cons f t' ih =>
    intro e hclean fuel rest
    have hcleanTail :
        ((f :: t').all fun ev =>
            cleanStr ev.name && cleanStr ev.category && phaseOk ev.phase) = true := by
      simp only [List.all_cons, Bool.and_eq_true] at hclean ⊢
      exact ⟨hclean.2.1, hclean.2.2⟩
    simp only [List.all_cons, Bool.and_eq_true] at hclean
    obtain ⟨⟨⟨hn, hc⟩, hp⟩, _⟩ := hclean
    have hbody : (eventsBody (e :: f :: t')).data ++ ']' :: rest
        = (renderEvent e).data
            ++ ',' :: ((eventsBody (f :: t')).data ++ ']' :: rest) := by
      simp [eventsBody, eventsTail, data_append, List.append_assoc]
    rw [hbody]
    have hval := renderEvent_parses e hn hc hp ((f :: t').length + fuel)
      (',' :: ((eventsBody (f :: t')).data ++ ']' :: rest))
    have hih := ih f hcleanTail fuel rest
    rw [show (e :: f :: t').length + (fuel + 9)
        = (((f :: t').length + fuel) + 9) + 1 from by simp; omega]
    conv_lhs => rw [parseJ]
    rw [hval]
    simp only [skipWs, isWsChar]
    rw [show ((f :: t').length + fuel) + 9 = (f :: t').length + (fuel + 9) from by omega]
    simpa using hih

theorem parseJ_array_events (g : Nat) (evs : List TraceEvent)
    (hclean : (evs.all fun ev =>
        cleanStr ev.name && cleanStr ev.category && phaseOk ev.phase) = true)
    (REST : List Char) :
    parseJ (evs.length + (g + 11)) .value
        ('[' :: ((eventsBody evs).data ++ ']' :: REST)) = some REST := by
  cases evs with
  | nil =>
    rw [show ([] : List TraceEvent).length + (g + 11) = (g + 10) + 1 from by simp]
    conv_lhs => rw [parseJ]
    simp [skipWs, isWsChar, eventsBody]
  | cons e t =>
    obtain ⟨tl, htl⟩ := renderEvent_head e
    have hexp : (eventsBody (e :: t)).data ++ ']' :: REST
        = '\x7b' :: (tl ++ ((eventsTail t).data ++ ']' :: REST)) := by
      simp [eventsBody, data_append, htl, List.append_assoc]
    rw [show (e :: t).length + (g + 11) = ((e :: t).length + (g + 10)) + 1 from by omega]
    conv_lhs => rw [parseJ]
    rw [hexp]
    have hp := eventsBody_parses t e hclean (g + 1) REST
    rw [hexp] at hp
    simp [skipWs, isWsChar]
    exact hp

theorem writeToFile_parses (s : ChromeTracer)
    (h : (s.events.all fun ev =>
        cleanStr ev.name && cleanStr ev.category && phaseOk ev.phase) = true)
    (g : Nat) :
    parseJ (s.events.length + (g + 13)) .value s.writeToFile.data = some [] := by
  have hdata : s.writeToFile.data
      = '\x7b' :: ('"' :: ('t' :: 'r' :: 'a' :: 'c' :: 'e' :: 'E' :: 'v' :: 'e' ::
          'n' :: 't' :: 's' :: [] ++ '"' :: ':' ::
            ('[' :: ((eventsBody s.events).data ++ ']' :: '\x7d' :: [])))) := by
    simp [ChromeTracer.writeToFile, data_append, List.append_assoc]
  have harr := parseJ_array_events g s.events h ('\x7d' :: [])
  have hmem := parseJ_members_step_end (s.events.length + (g + 10))
    ('t' :: 'r' :: 'a' :: 'c' :: 'e' :: 'E' :: 'v' :: 'e' :: 'n' :: 't' :: 's' :: [])
    ('[' :: ((eventsBody s.events).data ++ ']' :: '\x7d' :: [])) []
    (by decide) harr
  rw [hdata]
  rw [show s.events.length + (g + 13) = (s.events.length + (g + 12)) + 1 from by omega]
  conv_lhs => rw [parseJ]
  simp [skipWs, isWsChar, lbrace, rbrace]
  simp only [List.cons_append, List.nil_append] at hmem
  rw [show s.events.length + (g + 12) = (s.events.length + (g + 10)) + 2 from by omega]
  exact hmem

theorem writeToFile_valid (s : ChromeTracer)
    (h : (s.events.all fun ev =>
        cleanStr ev.name && cleanStr ev.category && phaseOk ev.phase) = true) :
    isValidJson s.writeToFile = true := by
  have h1 := eventsBody_length s.events
  have h2 : s.writeToFile.length = s.writeToFile.data.length := rfl
  have hb : (eventsBody s.events).length = (eventsBody s.events).data.length := rfl
  have hK : s.events.length ≤ s.writeToFile.length := by
    simp only [ChromeTracer.writeToFile, String.length_append] at *
    omega
  have hparse := writeToFile_parses s h (2 * s.writeToFile.length + 3 - s.events.length)
  rw [show s.events.length + ((2 * s.writeToFile.length + 3 - s.events.length) + 13)
      = 2 * s.writeToFile.length + 16 from by omega] at hparse
  simp only [isValidJson]
  rw [hparse]
  simp [skipWs]

set_option maxRecDepth 1000000 in
/-- C10, counterexample.  The claim's universal halves both fail.  A
record whose name contains a backslash and a double quote (the two-byte
name made of a backslash then a quote) flushes to output that *is*
well-formed JSON, because the copied bytes happen to read as an escape
sequence; and a record whose name contains neither quote nor backslash
but a raw newline flushes to output that is *not* well-formed JSON. -/
theorem escaping_counterexample :
    ('\\' ∈ ("\\\"" : String).data ∧ '"' ∈ ("\\\"" : String).data) ∧
    isValidJson ((ChromeTracer.init.beginSession "t.json" 0).addInstantEvent
        "\\\"" "c" 5 7).writeToFile = true ∧
    ('"' ∉ ("a\nb" : String).data ∧ '\\' ∉ ("a\nb" : String).data) ∧
    isValidJson ((ChromeTracer.init.beginSession "t.json" 0).addInstantEvent
        "a\nb" "c" 5 7).writeToFile = false :=
  ⟨by decide, by decide, by decide, by decide⟩

set_option maxRecDepth 1000000 in
/-- C10, amended.  `writeToFile` copies names and categories into the
output byte for byte with no escaping, so a double quote in a name can
break well-formedness (witnessed concretely below, though not every such
buffer breaks), while for buffers whose names and categories contain no
double quote, no backslash and no control character the flushed output
parses as a single valid JSON object. -/
theorem json_escaping_amended (s : ChromeTracer)
    (h : (s.events.all fun ev =>
        cleanStr ev.name && cleanStr ev.category && phaseOk ev.phase) = true) :
    isValidJson s.writeToFile = true ∧
    isValidJson ((ChromeTracer.init.beginSession "t.json" 0).addInstantEvent
        "a\"b" "c" 5 7).writeToFile = false :=
  ⟨writeToFile_valid s h, by decide⟩

set_option maxRecDepth 1000000 in
theorem json_escaping_amended_witness :
    (((ChromeTracer.init.beginSession "t.json" 0).addInstantEvent "A" "cat" 5 7).events.all
        fun ev => cleanStr ev.name && cleanStr ev.category && phaseOk ev.phase) = true ∧
    isValidJson ((ChromeTracer.init.beginSession "t.json" 0).addInstantEvent
        "A" "cat" 5 7).writeToFile = true :=
  ⟨by decide,
   (json_escaping_amended
     ((ChromeTracer.init.beginSession "t.json" 0).addInstantEvent "A" "cat" 5 7)
     (by decide)).1⟩
